import Mathlib

/-!
# Baggage-to-span annotation: `CustomSpanProcessor` and `baggageMiddleware`

A shallow embedding of `main.go`.  The program has two pieces of logic of its own:

* `CustomSpanProcessor` (lines 19-59): a span processor that copies every member of the
  baggage found in the start context onto the starting span, under the attribute name
  `"baggage." ++ key`, and then forwards to the processor it wraps;
* `baggageMiddleware` (lines 102-158): an HTTP middleware that builds a baggage from request
  headers and the peer address and installs it in the request context.

Everything else the program touches (the `baggage`, `attribute`, `context`, `net/http` and
`sdk/trace` packages) is a dependency that lives outside the repository.  Those parts are
modelled from the specification, or taken as a parameter, and are marked as such; the
functions of `main.go` are translated line by line on top of them.
-/

namespace OtelBaggage

/-! ## Values shared by the packages -/

/-- Go `error` values; the nil error is `none : Option Error`. -/
structure Error where
  msg : String
  deriving DecidableEq, Repr

/-! ## Package `attribute` -/

/-- Modelled from the spec: the scalar an attribute holds (section 3, "attribute name to
scalar value (string, int, float, bool, or homogeneous array)").  A float is kept as its bit
pattern. -/
inductive attribute.Value where
  | BOOL (b : Bool)
  | INT64 (i : Int)
  | FLOAT64 (bits : Nat)
  | STRING (s : String)
  | STRINGSLICE (ss : List String)
  deriving DecidableEq, Repr

/-- Modelled from the spec: one attribute, a name together with its scalar. -/
structure attribute.KeyValue where
  Key : String
  Value : attribute.Value
  deriving DecidableEq, Repr

/-- The constructor `attribute.String(k, v)`: a string-typed attribute. -/
def attribute.String (k v : String) : attribute.KeyValue :=
  { Key := k, Value := attribute.Value.STRING v }

/-! ## Package `baggage` -/

/-- Modelled from the spec: a baggage entry (section 3), the pair of a key and a value.
`hasData` is false exactly for the zero `Member` that `NewMember` hands back together with
an error.  Properties are left out: the program never passes any to `NewMember` and
`OnStart` reads only `Key()` and `Value()`. -/
structure baggage.Member where
  key : String
  value : String
  hasData : Bool
  deriving DecidableEq, Repr

/-- The accessor `Member.Key()`. -/
def baggage.Member.Key (m : baggage.Member) : String := m.key

/-- The accessor `Member.Value()`. -/
def baggage.Member.Value (m : baggage.Member) : String := m.value

/-- The zero `Member`, returned next to an error. -/
def baggage.newInvalidMember : baggage.Member :=
  { key := "", value := "", hasData := false }

/-- A character that stands for itself in a percent-encoded value: neither the escape sign
`%` nor `+`. -/
def baggage.plainChar (c : Char) : Bool := c != '%' && c != '+'

/-- The parts of the `baggage` package whose exact form the repository does not fix; they
are a parameter of the model, and every general statement below holds for all of them.
`memberOK key value` is the acceptance test of `NewMember` (section 4.1: `InvalidKey`,
`InvalidValue`, a malformed escape).  `decode` is the percent-decoding under which the Go
function `NewMember` stores an accepted value; all that is asked of it is that it leaves a
value without `%` and `+` as it is.  `sizeOK` is the acceptance test `New` applies to the
assembled key/value table (oversized carriers). -/
structure baggage.Rules where
  memberOK : String → String → Bool
  decode : String → String
  decode_plain : ∀ value : String, value.data.all baggage.plainChar = true → decode value = value
  sizeOK : List (String × String) → Bool

/-- The error of a rejected key or value. -/
def baggage.errInvalidMemberData : Error := ⟨"invalid baggage key or value"⟩

/-- The error `New` reports for a member without data. -/
def baggage.errInvalidMember : Error := ⟨"invalid baggage list-member"⟩

/-- The error `New` reports for an oversized carrier. -/
def baggage.errBaggageBytes : Error := ⟨"too many bytes to form valid baggage"⟩

/-- Modelled from the spec: `NewEntry(key, value)` (section 4.1) gives the entry or an error,
here with the behaviour of the Go function `baggage.NewMember` that the program calls: the
value is taken in its percent-encoded form and the entry holds it decoded.  As a Go function
it returns both results: the member and a nil error, or the zero member and the error. -/
def baggage.NewMember (rules : baggage.Rules) (key value : String) :
    baggage.Member × Option Error :=
  if rules.memberOK key value then
    ({ key := key, value := rules.decode value, hasData := true }, none)
  else
    (baggage.newInvalidMember, some baggage.errInvalidMemberData)

/-- Assignment `b[key] = value` on a key/value table kept as a list without repeated keys:
the value of an existing key is replaced in place, a new key is added at the end. -/
def baggage.assign (key value : String) : List (String × String) → List (String × String)
  | [] => [(key, value)]
  | (k, v) :: rest =>
    if k = key then (k, value) :: rest else (k, v) :: baggage.assign key value rest

/-- Modelled from the spec: the baggage carrier (section 3), "an unordered set of entries
with unique keys".  The entries are listed in the order in which `Members()` happens to
enumerate them; uniqueness of keys is part of the type, as it is for the Go map inside
`baggage.Baggage`. -/
structure baggage.Baggage where
  list : List (String × String)
  nodup : (list.map Prod.fst).Nodup

/-- The empty carrier `Baggage{}`. -/
def baggage.Baggage.empty : baggage.Baggage :=
  { list := [], nodup := List.nodup_nil }

/-- Modelled from the spec: `Members(carrier)` (section 4.1), the entries of the carrier. -/
def baggage.Baggage.Members (b : baggage.Baggage) : List baggage.Member :=
  b.list.map fun kv => { key := kv.1, value := kv.2, hasData := true }


/-- The map assignment lifted to carriers; keys stay unique. -/
def baggage.Baggage.assign (b : baggage.Baggage) (key value : String) : baggage.Baggage :=
  { list := baggage.assign key value b.list
    nodup := by
      have keys : ∀ l : List (String × String),
          (baggage.assign key value l).map Prod.fst
            = if key ∈ l.map Prod.fst then l.map Prod.fst else l.map Prod.fst ++ [key] := by
        intro l
        induction l with
        | nil => simp [baggage.assign]
        | cons kv rest ih =>
          obtain ⟨k, v⟩ := kv
          by_cases hk : k = key
          · simp [baggage.assign, hk]
          · have hk2 : ¬ key = k := fun h => hk h.symm
            by_cases hm : key ∈ rest.map Prod.fst
            · simp [baggage.assign, hk, ih, hm]
            · simp [baggage.assign, hk, hk2, ih, hm]
      rw [keys]
      by_cases hm : key ∈ b.list.map Prod.fst
      · simpa [hm] using b.nodup
      · rw [if_neg hm]
        exact List.Nodup.append b.nodup (List.nodup_singleton key)
          (fun a ha hk => hm (by simpa [List.mem_singleton.mp hk] using ha)) }

/-- The loop of `New` over its arguments: a member without data aborts, every other member
is assigned into the table (a repeated key keeps its last value). -/
def baggage.New.loop : List baggage.Member → baggage.Baggage → Option baggage.Baggage
  | [], b => some b
  | m :: ms, b =>
    if m.hasData = false then none else baggage.New.loop ms (b.assign m.key m.value)

/-- Modelled from the spec: `NewCarrier(entries...)` (section 4.1) gives the carrier or an
error, here with the behaviour of the Go function `baggage.New` that the program calls.  No
arguments give the empty carrier.  A member without data (the zero member of a failed
`NewMember`, whose key is empty and so is no entry in the sense of section 3) is answered
with an error.  A repeated key keeps its last value; section 4.1 names a `DuplicateKey` error
instead, and since the middleware never passes two members with data and one key, nothing
below depends on the difference.  The assembled table is then checked for size.  On failure
the zero carrier comes back with the error. -/
def baggage.New (rules : baggage.Rules) (members : List baggage.Member) :
    baggage.Baggage × Option Error :=
  match members with
  | [] => (baggage.Baggage.empty, none)
  | _ :: _ =>
    match baggage.New.loop members baggage.Baggage.empty with
    | none => (baggage.Baggage.empty, some baggage.errInvalidMember)
    | some b =>
      if rules.sizeOK b.list then (b, none)
      else (baggage.Baggage.empty, some baggage.errBaggageBytes)

/-! ## Package `context` -/

/-- Modelled from the spec: the execution context (section 3), a scoped table "including at
most one baggage carrier".  `values` stands for everything else a context carries. -/
structure context.Context where
  baggage : Option baggage.Baggage
  values : List (String × String)

/-- Modelled from the spec: `BaggageOf(ctx)` (section 4.2), "the carrier in ctx, or an empty
carrier if none". -/
def baggage.FromContext (ctx : context.Context) : baggage.Baggage :=
  match ctx.baggage with
  | some b => b
  | none => baggage.Baggage.empty

/-- Modelled from the spec: `WithBaggage(ctx, carrier)` (section 4.2), a new context whose
baggage slot is the carrier. -/
def baggage.ContextWithBaggage (ctx : context.Context) (b : baggage.Baggage) :
    context.Context :=
  { ctx with baggage := some b }

/-! ## Package `sdk/trace` -/

/-- Modelled from the spec: the span as `OnStart` sees it (section 4.4, "a read-write view at
this instant").  `attributes` is the sequence of attributes written so far, oldest first;
the attribute map is read off it by `Attribute`. -/
structure sdktrace.ReadWriteSpan where
  name : String
  attributes : List attribute.KeyValue
  deriving DecidableEq, Repr

/-- Modelled from the spec: `SetAttributes(span, ...)` (section 4.3) for one attribute; the
write is recorded after the earlier ones. -/
def sdktrace.ReadWriteSpan.SetAttributes (s : sdktrace.ReadWriteSpan) (kv : attribute.KeyValue) :
    sdktrace.ReadWriteSpan :=
  { s with attributes := s.attributes ++ [kv] }

/-- One step of reading the attribute map: a write to `name` replaces what was read. -/
def sdktrace.lastWrite (name : String) (acc : Option attribute.Value) (kv : attribute.KeyValue) :
    Option attribute.Value :=
  if kv.Key = name then some kv.Value else acc

/-- Modelled from the spec: the span's attribute map (section 4.3, "last-write-wins per
key"): the value of the latest write to `name`, if there is one. -/
def sdktrace.ReadWriteSpan.Attribute (s : sdktrace.ReadWriteSpan) (name : String) :
    Option attribute.Value :=
  s.attributes.foldl (sdktrace.lastWrite name) none

/-- Modelled from the spec: the span as `OnEnd` sees it, a read-only view. -/
structure sdktrace.ReadOnlySpan where
  name : String
  attributes : List attribute.KeyValue
  deriving DecidableEq, Repr

/-- Modelled from the spec: the processor interface (sections 3 and 4.4), "a stateful object
implementing four operations".  The state of the object is threaded through as `σ`;
`OnStart` may mutate the span it is given. -/
structure sdktrace.SpanProcessor (σ : Type) where
  OnStart : context.Context → sdktrace.ReadWriteSpan → σ → sdktrace.ReadWriteSpan × σ
  OnEnd : sdktrace.ReadOnlySpan → σ → σ
  Shutdown : context.Context → σ → Option Error × σ
  ForceFlush : context.Context → σ → Option Error × σ

/-! ## `CustomSpanProcessor` (main.go, lines 19-59) -/

/-- The struct `CustomSpanProcessor`: it embeds a `sdktrace.SpanProcessor`, an interface
value that may be nil. -/
structure CustomSpanProcessor (σ : Type) where
  SpanProcessor : Option (sdktrace.SpanProcessor σ)

/-- Lines 26-31 of `OnStart`: read the baggage of the parent context and, for each member,
set the string attribute `"baggage." ++ member.Key()` to `member.Value()`. -/
def CustomSpanProcessor.annotate (parent : context.Context) (s : sdktrace.ReadWriteSpan) :
    sdktrace.ReadWriteSpan :=
  let bag := baggage.FromContext parent
  bag.Members.foldl
    (fun s member =>
      let key := "baggage." ++ member.Key
      s.SetAttributes (attribute.String key member.Value))
    s

/-- The method `OnStart` (lines 25-36): annotate, then forward to the wrapped processor when
there is one. -/
def CustomSpanProcessor.OnStart {σ : Type} (csp : CustomSpanProcessor σ)
    (parent : context.Context) (s : sdktrace.ReadWriteSpan) (st : σ) :
    sdktrace.ReadWriteSpan × σ :=
  let s := CustomSpanProcessor.annotate parent s
  match csp.SpanProcessor with
  | some p => p.OnStart parent s st
  | none => (s, st)

/-- The method `OnEnd` (lines 39-43). -/
def CustomSpanProcessor.OnEnd {σ : Type} (csp : CustomSpanProcessor σ)
    (s : sdktrace.ReadOnlySpan) (st : σ) : σ :=
  match csp.SpanProcessor with
  | some p => p.OnEnd s st
  | none => st

/-- The method `Shutdown` (lines 46-51). -/
def CustomSpanProcessor.Shutdown {σ : Type} (csp : CustomSpanProcessor σ)
    (ctx : context.Context) (st : σ) : Option Error × σ :=
  match csp.SpanProcessor with
  | some p => p.Shutdown ctx st
  | none => (none, st)

/-- The method `ForceFlush` (lines 54-59). -/
def CustomSpanProcessor.ForceFlush {σ : Type} (csp : CustomSpanProcessor σ)
    (ctx : context.Context) (st : σ) : Option Error × σ :=
  match csp.SpanProcessor with
  | some p => p.ForceFlush ctx st
  | none => (none, st)

/-! ## Package `net/http` -/

/-- Modelled from the spec: the request metadata the ingress adapter reads (section 4.7): the
header table (a name gives its list of values, none for an absent header; the table is
indexed by the names the program passes to `Get`), the peer address and the request
context. -/
structure http.Request where
  Header : String → List String
  RemoteAddr : String
  ctx : context.Context

/-- The method `Header.Get`: the first value of the header, or `""` when it has none. -/
def http.Header.Get (h : String → List String) (key : String) : String :=
  (h key).headD ""

/-- The method `Request.Context()`. -/
def http.Request.Context (r : http.Request) : context.Context := r.ctx

/-- The method `Request.WithContext(ctx)`: a copy of the request with its context replaced. -/
def http.Request.WithContext (r : http.Request) (ctx : context.Context) : http.Request :=
  { r with ctx := ctx }

/-- Modelled from the spec: a request handler.  `σ` is the state a call of `ServeHTTP` acts
on (the response writer, which the middleware passes on untouched, and the state of the
application). -/
abbrev http.Handler (σ : Type) := http.Request → σ → σ

/-! ## `baggageMiddleware` (main.go, lines 102-158) -/

/-- Lines 107-142 of `baggageMiddleware`: the slice `members` once all five sources have been
looked at.  `now` is the reading of `time.Now().UnixNano()`.  The error of each `NewMember`
call is discarded (`member, _ := ...`) and the member it returned is appended either way. -/
def baggageMiddleware.members (rules : baggage.Rules) (now : Int) (r : http.Request) :
    List baggage.Member :=
  let members : List baggage.Member := []
  let userID := http.Header.Get r.Header "X-User-ID"
  let members :=
    if userID ≠ "" then members ++ [(baggage.NewMember rules "user_id" userID).1] else members
  let tenantID := http.Header.Get r.Header "X-Tenant-ID"
  let members :=
    if tenantID ≠ "" then members ++ [(baggage.NewMember rules "tenant_id" tenantID).1]
    else members
  let requestID := http.Header.Get r.Header "X-Request-ID"
  let requestID := if requestID = "" then "req_" ++ toString now else requestID
  let members := members ++ [(baggage.NewMember rules "request_id" requestID).1]
  let clientIP := r.RemoteAddr
  let forwarded := http.Header.Get r.Header "X-Forwarded-For"
  let clientIP := if forwarded ≠ "" then forwarded else clientIP
  let members := members ++ [(baggage.NewMember rules "client_ip" clientIP).1]
  let userAgent := http.Header.Get r.Header "User-Agent"
  let members :=
    if userAgent ≠ "" then members ++ [(baggage.NewMember rules "user_agent" userAgent).1]
    else members
  members

/-- The handler `baggageMiddleware(next)` (lines 103-158).  When `baggage.New` reports an
error the handler logs it (the log is not part of the model) and serves the request as it
came; otherwise it serves the request with the carrier installed in its context. -/
def baggageMiddleware {σ : Type} (rules : baggage.Rules) (now : Int) (next : http.Handler σ) :
    http.Handler σ :=
  fun r st =>
    let ctx := r.Context
    let members := baggageMiddleware.members rules now r
    match baggage.New rules members with
    | (_, some _) => next r st
    | (bag, none) =>
      let ctx := baggage.ContextWithBaggage ctx bag
      let r := r.WithContext ctx
      next r st

/-! ## Instances used to evaluate the model -/

/-- Key characters of the W3C Baggage format (an HTTP token). -/
def baggage.w3cKeyChar (c : Char) : Bool :=
  let n := c.toNat
  n = 0x21 || (0x23 ≤ n && n ≤ 0x27) || n = 0x2A || n = 0x2B || n = 0x2D || n = 0x2E ||
    (0x30 ≤ n && n ≤ 0x39) || (0x41 ≤ n && n ≤ 0x5A) || (0x5E ≤ n && n ≤ 0x7A) ||
    n = 0x7C || n = 0x7E

/-- Value characters of the W3C Baggage format (a baggage-octet): printable ASCII without
space, double quote, comma, semicolon and backslash. -/
def baggage.w3cValueChar (c : Char) : Bool :=
  let n := c.toNat
  n = 0x21 || (0x23 ≤ n && n ≤ 0x2B) || (0x2D ≤ n && n ≤ 0x3A) || (0x3C ≤ n && n ≤ 0x5B) ||
    (0x5D ≤ n && n ≤ 0x7E)

/-- The value of a hexadecimal digit. -/
def baggage.unhex (c : Char) : Option Nat :=
  let n := c.toNat
  if 0x30 ≤ n ∧ n ≤ 0x39 then some (n - 0x30)
  else if 0x41 ≤ n ∧ n ≤ 0x46 then some (n - 0x41 + 10)
  else if 0x61 ≤ n ∧ n ≤ 0x66 then some (n - 0x61 + 10)
  else none

/-- Every `%` of the value is followed by two hexadecimal digits. -/
def baggage.escapesOK : List Char → Bool
  | [] => true
  | [c] => c != '%'
  | [c, d] => c != '%' && d != '%'
  | c :: a :: b :: rest =>
    if c = '%' then
      (baggage.unhex a).isSome && (baggage.unhex b).isSome && baggage.escapesOK rest
    else baggage.escapesOK (a :: b :: rest)

/-- Percent-decoding of a value: an escape `%XY` of an ASCII byte becomes that character.
An escape of a byte above `0x7F`, a part of a multi-byte character, is left as it is. -/
def baggage.percentDecode : List Char → List Char
  | [] => []
  | [c] => [c]
  | [c, d] => [c, d]
  | c :: a :: b :: rest =>
    if c = '%' ∧ (baggage.unhex a).isSome ∧ (baggage.unhex b).isSome
        ∧ 16 * (baggage.unhex a).getD 0 + (baggage.unhex b).getD 0 < 0x80 then
      Char.ofNat (16 * (baggage.unhex a).getD 0 + (baggage.unhex b).getD 0)
        :: baggage.percentDecode rest
    else c :: baggage.percentDecode (a :: b :: rest)

/-- One instance of the package rules, after the W3C Baggage format: a key is a non-empty
token, a value is a possibly empty run of baggage-octets with well-formed escapes, the
stored value is the percent-decoded one, and a carrier holds at most 180 entries and 8192
characters in its `key=value,...` form. -/
def baggage.w3cRules : baggage.Rules :=
  { memberOK := fun key value =>
      key.data ≠ [] && key.data.all baggage.w3cKeyChar && value.data.all baggage.w3cValueChar
        && baggage.escapesOK value.data
    decode := fun value => String.mk (baggage.percentDecode value.data)
    decode_plain := by
      have plain : ∀ l : List Char, l.all baggage.plainChar = true →
          baggage.percentDecode l = l := by
        intro l
        induction l using baggage.percentDecode.induct with
        | case1 => intro _; rfl
        | case2 c => intro _; rfl
        | case3 c d => intro _; rfl
        | case4 c a b rest hc ih =>
          intro hl
          have hne : c ≠ '%' := by
            intro h
            subst h
            simp [baggage.plainChar] at hl
          exact absurd hc.1 hne
        | case5 c a b rest hc ih =>
          intro hl
          have htail : (a :: b :: rest).all baggage.plainChar = true := by
            simp only [List.all_cons, Bool.and_eq_true] at hl ⊢
            exact hl.2
          simp only [baggage.percentDecode, hc, if_false, ih htail]
      intro value hvalue
      exact String.ext (plain value.data hvalue)
    sizeOK := fun b =>
      b.length ≤ 180 &&
        (b.map fun kv => kv.1.length + 1 + kv.2.length).sum + (b.length - 1) ≤ 8192 }

/-- One call received by a span processor. -/
inductive sdktrace.Call where
  | OnStart (parent : context.Context) (s : sdktrace.ReadWriteSpan)
  | OnEnd (s : sdktrace.ReadOnlySpan)
  | Shutdown (ctx : context.Context)
  | ForceFlush (ctx : context.Context)

/-- A span processor that does nothing but keep the list of the calls it receives, and that
answers `Shutdown` and `ForceFlush` with `result`. -/
def sdktrace.recorder (result : Option Error) : sdktrace.SpanProcessor (List sdktrace.Call) :=
  { OnStart := fun parent s calls => (s, calls ++ [sdktrace.Call.OnStart parent s])
    OnEnd := fun s calls => calls ++ [sdktrace.Call.OnEnd s]
    Shutdown := fun ctx calls => (result, calls ++ [sdktrace.Call.Shutdown ctx])
    ForceFlush := fun ctx calls => (result, calls ++ [sdktrace.Call.ForceFlush ctx]) }

/-- A handler that does nothing but keep the list of the requests it is called with. -/
def http.recorder : http.Handler (List http.Request) :=
  fun r calls => calls ++ [r]

/-- A request as a browser sends it: a user id, no request id, and a `User-Agent` value
that holds spaces and a semicolon. -/
def browserRequest : http.Request :=
  { Header := fun key =>
      if key = "X-User-ID" then ["user123"]
      else if key = "User-Agent" then ["Mozilla/5.0 (X11; Linux x86_64)"]
      else []
    RemoteAddr := "10.0.0.1:4242"
    ctx := { baggage := none, values := [] } }

/-- A request with all five recognized headers, whose user id holds the escape `%40`. -/
def escapedRequest : http.Request :=
  { Header := fun key =>
      if key = "X-User-ID" then ["alice%40example.com"]
      else if key = "X-Tenant-ID" then ["acme-corp"]
      else if key = "X-Request-ID" then ["req-42"]
      else if key = "X-Forwarded-For" then ["203.0.113.7"]
      else if key = "User-Agent" then ["curl/8.5.0"]
      else []
    RemoteAddr := "10.0.0.1:4242"
    ctx := { baggage := none, values := [] } }

/-- A request with no recognized header and an empty peer address. -/
def bareRequest : http.Request :=
  { Header := fun _ => []
    RemoteAddr := ""
    ctx := { baggage := none, values := [] } }

/-! ## Vocabulary of the statements -/

/-- A wrapped processor whose `OnStart` leaves the attribute map of the span as it is. -/
def sdktrace.SpanProcessor.keepsAttributes {σ : Type} (p : sdktrace.SpanProcessor σ) : Prop :=
  ∀ (parent : context.Context) (s : sdktrace.ReadWriteSpan) (st : σ) (name : String),
    (p.OnStart parent s st).1.Attribute name = s.Attribute name

/-- The wrapped processor is absent, or one that keeps the attribute map. -/
def CustomSpanProcessor.downstreamKeepsAttributes {σ : Type} (csp : CustomSpanProcessor σ) :
    Prop :=
  ∀ p, csp.SpanProcessor = some p → p.keepsAttributes

/-- An attribute name of the form `baggage.*`. -/
def isBaggageName (name : String) : Bool :=
  "baggage.".data.isPrefixOf name.data

/-- The key/value pairs `baggageMiddleware` hands to `NewMember`, in the order of the calls
(lines 111-141): one pair for each source that is looked at and not skipped. -/
def baggageMiddleware.calls (now : Int) (r : http.Request) : List (String × String) :=
  (if http.Header.Get r.Header "X-User-ID" ≠ "" then
      [("user_id", http.Header.Get r.Header "X-User-ID")] else [])
  ++ (if http.Header.Get r.Header "X-Tenant-ID" ≠ "" then
      [("tenant_id", http.Header.Get r.Header "X-Tenant-ID")] else [])
  ++ [("request_id",
        if http.Header.Get r.Header "X-Request-ID" = "" then "req_" ++ toString now
        else http.Header.Get r.Header "X-Request-ID"),
      ("client_ip",
        if http.Header.Get r.Header "X-Forwarded-For" ≠ "" then
          http.Header.Get r.Header "X-Forwarded-For"
        else r.RemoteAddr)]
  ++ (if http.Header.Get r.Header "User-Agent" ≠ "" then
      [("user_agent", http.Header.Get r.Header "User-Agent")] else [])

/-- The entries those calls give when all of them succeed: each value as `NewMember` stores
it. -/
def baggageMiddleware.entries (rules : baggage.Rules) (now : Int) (r : http.Request) :
    List (String × String) :=
  (baggageMiddleware.calls now r).map fun kv => (kv.1, rules.decode kv.2)

/-- The attribute `OnStart` writes for one carrier entry. -/
def baggageAttr (kv : String × String) : attribute.KeyValue :=
  attribute.String ("baggage." ++ kv.1) kv.2

/-! ## Lemmas on the attribute map -/

theorem baggage_name_inj {a b : String} (h : "baggage." ++ a = "baggage." ++ b) : a = b := by
  have hd := congrArg String.data h
  simp only [String.data_append] at hd
  exact String.ext (List.append_cancel_left hd)

theorem isBaggageName_append (k : String) : isBaggageName ("baggage." ++ k) = true := by
  simp [isBaggageName, String.data_append]

theorem isBaggageName_iff (name : String) :
    isBaggageName name = true ↔ ∃ k, name = "baggage." ++ k := by
  constructor
  · intro h
    simp only [isBaggageName, List.isPrefixOf_iff_prefix] at h
    obtain ⟨t, ht⟩ := h
    exact ⟨⟨t⟩, String.ext (by simp [String.data_append, ← ht])⟩
  · rintro ⟨k, rfl⟩
    exact isBaggageName_append k

theorem members_map_attr (b : baggage.Baggage) :
    b.Members.map (fun m => attribute.String ("baggage." ++ m.Key) m.Value)
      = b.list.map baggageAttr := by
  simp [baggage.Baggage.Members, baggageAttr, baggage.Member.Key, baggage.Member.Value,
    Function.comp_def]

theorem foldl_setAttributes (s : sdktrace.ReadWriteSpan) (ms : List baggage.Member) :
    ms.foldl (fun s member =>
        s.SetAttributes (attribute.String ("baggage." ++ member.Key) member.Value)) s
      = { s with attributes := s.attributes
            ++ ms.map (fun m => attribute.String ("baggage." ++ m.Key) m.Value) } := by
  induction ms generalizing s with
  | nil => simp
  | cons m ms ih =>
    simp only [List.foldl_cons, List.map_cons]
    rw [ih]
    simp [sdktrace.ReadWriteSpan.SetAttributes]

/-- The annotation step appends one write per carrier entry and touches nothing else. -/
theorem annotate_eq (parent : context.Context) (s : sdktrace.ReadWriteSpan) :
    CustomSpanProcessor.annotate parent s
      = { s with attributes := s.attributes
            ++ (baggage.FromContext parent).list.map baggageAttr } := by
  unfold CustomSpanProcessor.annotate
  simp only []
  rw [foldl_setAttributes, members_map_attr]

theorem lastWrite_foldl_absent (name : String) (l : List attribute.KeyValue)
    (acc : Option attribute.Value) (h : ∀ kv ∈ l, kv.Key ≠ name) :
    l.foldl (sdktrace.lastWrite name) acc = acc := by
  induction l generalizing acc with
  | nil => rfl
  | cons kv rest ih =>
    have h1 : kv.Key ≠ name := h kv (List.mem_cons_self _ _)
    simp only [List.foldl_cons, sdktrace.lastWrite, if_neg h1]
    exact ih acc (fun kv2 hkv2 => h kv2 (List.mem_cons_of_mem _ hkv2))

theorem lastWrite_foldl_entry (l : List (String × String)) (hn : (l.map Prod.fst).Nodup)
    (k v : String) (hm : (k, v) ∈ l) (acc : Option attribute.Value) :
    (l.map baggageAttr).foldl (sdktrace.lastWrite ("baggage." ++ k)) acc
      = some (attribute.Value.STRING v) := by
  induction l generalizing acc with
  | nil => cases hm
  | cons kv rest ih =>
    obtain ⟨k2, v2⟩ := kv
    simp only [List.map_cons, List.nodup_cons] at hn
    simp only [List.map_cons, List.foldl_cons]
    rcases List.mem_cons.mp hm with heq | hrest
    · cases heq
      have habs : ∀ kv ∈ rest.map baggageAttr, kv.Key ≠ "baggage." ++ k := by
        intro kv hkv hkey
        obtain ⟨e, he, rfl⟩ := List.mem_map.mp hkv
        have : e.1 = k := baggage_name_inj hkey
        exact hn.1 (List.mem_map.mpr ⟨e, he, this⟩)
      rw [lastWrite_foldl_absent _ _ _ habs]
      simp [sdktrace.lastWrite, baggageAttr, attribute.String]
    · exact ih hn.2 hrest _

theorem attribute_append (s : sdktrace.ReadWriteSpan) (l : List attribute.KeyValue)
    (name : String) :
    ({ s with attributes := s.attributes ++ l } : sdktrace.ReadWriteSpan).Attribute name
      = l.foldl (sdktrace.lastWrite name) (s.Attribute name) := by
  simp [sdktrace.ReadWriteSpan.Attribute, List.foldl_append]

/-- After the annotation step every carrier entry is readable from the attribute map. -/
theorem annotate_entry (parent : context.Context) (s : sdktrace.ReadWriteSpan)
    (k v : String) (hm : (k, v) ∈ (baggage.FromContext parent).list) :
    (CustomSpanProcessor.annotate parent s).Attribute ("baggage." ++ k)
      = some (attribute.Value.STRING v) := by
  rw [annotate_eq, attribute_append]
  exact lastWrite_foldl_entry _ (baggage.FromContext parent).nodup k v hm _

/-- The annotation step keeps every attribute that is not `baggage.k` for a carrier key. -/
theorem annotate_other (parent : context.Context) (s : sdktrace.ReadWriteSpan)
    (name : String)
    (h : ∀ kv ∈ (baggage.FromContext parent).list, name ≠ "baggage." ++ kv.1) :
    (CustomSpanProcessor.annotate parent s).Attribute name = s.Attribute name := by
  rw [annotate_eq, attribute_append]
  apply lastWrite_foldl_absent
  intro kv hkv hkey
  obtain ⟨e, he, rfl⟩ := List.mem_map.mp hkv
  exact h e he hkey.symm

theorem mem_members_iff (b : baggage.Baggage) (m : baggage.Member) :
    m ∈ b.Members ↔ (m.key, m.value) ∈ b.list ∧ m.hasData = true := by
  obtain ⟨k, v, d⟩ := m
  simp only [baggage.Baggage.Members, List.mem_map, baggage.Member.mk.injEq]
  constructor
  · rintro ⟨kv, hkv, rfl, rfl, rfl⟩
    exact ⟨hkv, rfl⟩
  · rintro ⟨hkv, hd⟩
    exact ⟨(k, v), hkv, rfl, rfl, hd.symm⟩

theorem fromContext_of_some {c : context.Context} {B : baggage.Baggage}
    (hc : c.baggage = some B) : baggage.FromContext c = B := by
  simp [baggage.FromContext, hc]

/-- The annotation step reads the same value at `name` from two spans that agreed at `name`,
whatever the order in which the two carriers list the same entries. -/
theorem annotate_perm (c1 c2 : context.Context)
    (hp : (baggage.FromContext c1).list.Perm (baggage.FromContext c2).list)
    (s1 s2 : sdktrace.ReadWriteSpan) (name : String)
    (hs : s1.Attribute name = s2.Attribute name) :
    (CustomSpanProcessor.annotate c1 s1).Attribute name
      = (CustomSpanProcessor.annotate c2 s2).Attribute name := by
  by_cases h : ∃ kv ∈ (baggage.FromContext c1).list, name = "baggage." ++ kv.1
  · obtain ⟨⟨k, v⟩, hkv, rfl⟩ := h
    rw [annotate_entry c1 s1 k v hkv, annotate_entry c2 s2 k v (hp.subset hkv)]
  · have h1 : ∀ kv ∈ (baggage.FromContext c1).list, name ≠ "baggage." ++ kv.1 :=
      fun kv hkv hname => h ⟨kv, hkv, hname⟩
    have h2 : ∀ kv ∈ (baggage.FromContext c2).list, name ≠ "baggage." ++ kv.1 :=
      fun kv hkv hname => h ⟨kv, hp.symm.subset hkv, hname⟩
    rw [annotate_other c1 s1 name h1, annotate_other c2 s2 name h2, hs]

/-! ## The span processor: claims C1, C6, C7, C8, C10 -/

/-- C1: for every carrier `B`, every context `c` carrying `B` and every span `s`, whatever
attributes `s` held before, after `CustomSpanProcessor.OnStart c s` (the wrapped processor
absent or one that keeps the attribute map) the attribute `"baggage." ++ k` of the span is
the string `v`, for every entry `(k, v)` of `B`. -/
theorem C1_onStart_sets_baggage_attributes {σ : Type} (csp : CustomSpanProcessor σ)
    (hcsp : csp.downstreamKeepsAttributes) (B : baggage.Baggage) (c : context.Context)
    (hc : c.baggage = some B) (s : sdktrace.ReadWriteSpan) (st : σ)
    (m : baggage.Member) (hm : m ∈ B.Members) :
    (csp.OnStart c s st).1.Attribute ("baggage." ++ m.Key)
      = some (attribute.Value.STRING m.Value) := by
  have hentry : (m.key, m.value) ∈ (baggage.FromContext c).list := by
    rw [fromContext_of_some hc]
    exact ((mem_members_iff B m).mp hm).1
  have hann := annotate_entry c s m.key m.value hentry
  unfold CustomSpanProcessor.OnStart
  cases hp : csp.SpanProcessor with
  | none => simpa [baggage.Member.Key, baggage.Member.Value] using hann
  | some p =>
    simp only []
    rw [hcsp p hp]
    simpa [baggage.Member.Key, baggage.Member.Value] using hann

/-- Witness of C1: a span that already holds `baggage.user_id = "old"`, started in a context
whose carrier holds `user_id = "u1"`, reads `baggage.user_id = "u1"` after `OnStart`. -/
theorem C1_onStart_sets_baggage_attributes_witness :
    ((⟨none⟩ : CustomSpanProcessor Unit).OnStart
        { baggage := some ⟨[("user_id", "u1"), ("tenant_id", "t1")], by decide⟩, values := [] }
        { name := "process_order",
          attributes := [attribute.String "baggage.user_id" "old"] } ()).1.Attribute
        ("baggage." ++ "user_id")
      = some (attribute.Value.STRING "u1") :=
  C1_onStart_sets_baggage_attributes ⟨none⟩ (fun _ hp => by cases hp)
    ⟨[("user_id", "u1"), ("tenant_id", "t1")], by decide⟩ _ rfl _ ()
    { key := "user_id", value := "u1", hasData := true } (by decide)

/-- C6: `OnStart c s` of a `CustomSpanProcessor` wrapping `p` is the annotation step followed
by `p.OnStart` on the same context and span: `p` is handed the span after every entry of the
baggage of `c` has been written to it, so that span already reads `"baggage." ++ k = v` for
every entry, and a wrapped processor that records its calls has received exactly that one
call. -/
theorem C6_onStart_annotates_then_forwards {σ : Type} (p : sdktrace.SpanProcessor σ)
    (c : context.Context) (s : sdktrace.ReadWriteSpan) (st : σ) :
    (⟨some p⟩ : CustomSpanProcessor σ).OnStart c s st
        = p.OnStart c (CustomSpanProcessor.annotate c s) st
    ∧ (∀ m ∈ (baggage.FromContext c).Members,
        (CustomSpanProcessor.annotate c s).Attribute ("baggage." ++ m.Key)
          = some (attribute.Value.STRING m.Value))
    ∧ (∀ (result : Option Error) (calls : List sdktrace.Call),
        ((⟨some (sdktrace.recorder result)⟩ : CustomSpanProcessor _).OnStart c s calls).2
          = calls ++ [sdktrace.Call.OnStart c (CustomSpanProcessor.annotate c s)]) := by
  refine ⟨rfl, ?_, fun _ _ => rfl⟩
  intro m hm
  exact annotate_entry c s m.key m.value ((mem_members_iff _ m).mp hm).1

/-- Witness of C6: with the carrier `user_id = "u1"`, the recording processor wrapped by the
custom one receives a span that reads `baggage.user_id = "u1"`. -/
theorem C6_onStart_annotates_then_forwards_witness :
    (CustomSpanProcessor.annotate
        { baggage := some ⟨[("user_id", "u1")], by decide⟩, values := [] }
        { name := "process_order", attributes := [] }).Attribute ("baggage." ++ "user_id")
      = some (attribute.Value.STRING "u1") :=
  (C6_onStart_annotates_then_forwards (sdktrace.recorder none)
    { baggage := some ⟨[("user_id", "u1")], by decide⟩, values := [] }
    { name := "process_order", attributes := [] } []).2.1
    { key := "user_id", value := "u1", hasData := true } (by decide)

/-- C7: the annotation step of `OnStart` only appends writes, each to an attribute named
`"baggage." ++ k` for a key `k` of the baggage of the context; every attribute whose name is
not of that form keeps its value; and when the context carries no baggage, or an empty one,
the step writes nothing and returns the span as it was. -/
theorem C7_annotate_frame (c : context.Context) (s : sdktrace.ReadWriteSpan) :
    (∃ writes : List attribute.KeyValue,
        CustomSpanProcessor.annotate c s = { s with attributes := s.attributes ++ writes }
        ∧ writes.length = (baggage.FromContext c).Members.length
        ∧ ∀ kv ∈ writes, ∃ m ∈ (baggage.FromContext c).Members, kv.Key = "baggage." ++ m.Key)
    ∧ (∀ name : String,
        (∀ m ∈ (baggage.FromContext c).Members, name ≠ "baggage." ++ m.Key) →
          (CustomSpanProcessor.annotate c s).Attribute name = s.Attribute name)
    ∧ (c.baggage = none ∨ (baggage.FromContext c).Members = [] →
        CustomSpanProcessor.annotate c s = s
        ∧ (CustomSpanProcessor.annotate c s).attributes.length = s.attributes.length) := by
  refine ⟨⟨(baggage.FromContext c).list.map baggageAttr, annotate_eq c s, ?_, ?_⟩, ?_, ?_⟩
  · simp [baggage.Baggage.Members]
  · intro kv hkv
    obtain ⟨e, he, rfl⟩ := List.mem_map.mp hkv
    exact ⟨⟨e.1, e.2, true⟩, (mem_members_iff _ _).mpr ⟨he, rfl⟩, rfl⟩
  · intro name h
    apply annotate_other
    intro kv hkv
    exact h ⟨kv.1, kv.2, true⟩ ((mem_members_iff _ _).mpr ⟨hkv, rfl⟩)
  · intro h
    have hnil : (baggage.FromContext c).list = [] := by
      rcases h with h | h
      · simp [baggage.FromContext, h, baggage.Baggage.empty]
      · simpa [baggage.Baggage.Members] using h
    have : CustomSpanProcessor.annotate c s = s := by
      rw [annotate_eq, hnil]
      simp
    exact ⟨this, by rw [this]⟩

/-- Witness of C7: in a context without baggage the step returns the span unchanged, and with
the carrier `user_id = "u1"` the attribute `order.id` keeps its value. -/
theorem C7_annotate_frame_witness :
    CustomSpanProcessor.annotate { baggage := none, values := [] }
        { name := "process_order", attributes := [attribute.String "order.id" "o1"] }
      = { name := "process_order", attributes := [attribute.String "order.id" "o1"] }
    ∧ (CustomSpanProcessor.annotate
          { baggage := some ⟨[("user_id", "u1")], by decide⟩, values := [] }
          { name := "process_order",
            attributes := [attribute.String "order.id" "o1"] }).Attribute "order.id"
        = (sdktrace.ReadWriteSpan.mk "process_order"
            [attribute.String "order.id" "o1"]).Attribute "order.id" :=
  ⟨((C7_annotate_frame { baggage := none, values := [] }
        { name := "process_order", attributes := [attribute.String "order.id" "o1"] }).2.2
      (Or.inl rfl)).1,
   (C7_annotate_frame { baggage := some ⟨[("user_id", "u1")], by decide⟩, values := [] }
        { name := "process_order", attributes := [attribute.String "order.id" "o1"] }).2.1
      "order.id" (by decide)⟩

/-- C8: the attributes the annotation step produces do not depend on the order in which
`Members()` lists the carrier.  For two contexts whose carriers hold the same entries in any
two orders: two spans with equal attribute maps beforehand have equal attribute maps
afterwards, and two spans that agree on every `baggage.*` name beforehand (a parent and a
child span, say) agree on every `baggage.*` name afterwards. -/
theorem C8_annotate_order_independent (B1 B2 : baggage.Baggage) (hperm : B1.list.Perm B2.list)
    (c1 c2 : context.Context) (h1 : c1.baggage = some B1) (h2 : c2.baggage = some B2)
    (s1 s2 : sdktrace.ReadWriteSpan) :
    ((∀ name, s1.Attribute name = s2.Attribute name) →
      ∀ name, (CustomSpanProcessor.annotate c1 s1).Attribute name
        = (CustomSpanProcessor.annotate c2 s2).Attribute name)
    ∧ ((∀ name, isBaggageName name = true → s1.Attribute name = s2.Attribute name) →
      ∀ name, isBaggageName name = true →
        (CustomSpanProcessor.annotate c1 s1).Attribute name
          = (CustomSpanProcessor.annotate c2 s2).Attribute name) := by
  have hp : (baggage.FromContext c1).list.Perm (baggage.FromContext c2).list := by
    rw [fromContext_of_some h1, fromContext_of_some h2]
    exact hperm
  exact ⟨fun hs name => annotate_perm c1 c2 hp s1 s2 name (hs name),
    fun hs name hname => annotate_perm c1 c2 hp s1 s2 name (hs name hname)⟩

/-- C10: on `OnEnd`, `Shutdown` and `ForceFlush` the custom processor does what the processor
it wraps does, on the same arguments and with the same result, and a wrapped processor that
records its calls has received exactly one call; without a wrapped processor `OnEnd` leaves
the state alone and `Shutdown` and `ForceFlush` return the nil error. -/
theorem C10_forwarding {σ : Type} (p : sdktrace.SpanProcessor σ) (s : sdktrace.ReadOnlySpan)
    (ctx : context.Context) (st : σ) (result : Option Error) (calls : List sdktrace.Call) :
    (⟨some p⟩ : CustomSpanProcessor σ).OnEnd s st = p.OnEnd s st
    ∧ (⟨some p⟩ : CustomSpanProcessor σ).Shutdown ctx st = p.Shutdown ctx st
    ∧ (⟨some p⟩ : CustomSpanProcessor σ).ForceFlush ctx st = p.ForceFlush ctx st
    ∧ (⟨some (sdktrace.recorder result)⟩ : CustomSpanProcessor _).OnEnd s calls
        = calls ++ [sdktrace.Call.OnEnd s]
    ∧ (⟨some (sdktrace.recorder result)⟩ : CustomSpanProcessor _).Shutdown ctx calls
        = (result, calls ++ [sdktrace.Call.Shutdown ctx])
    ∧ (⟨some (sdktrace.recorder result)⟩ : CustomSpanProcessor _).ForceFlush ctx calls
        = (result, calls ++ [sdktrace.Call.ForceFlush ctx])
    ∧ (⟨none⟩ : CustomSpanProcessor σ).OnEnd s st = st
    ∧ (⟨none⟩ : CustomSpanProcessor σ).Shutdown ctx st = (none, st)
    ∧ (⟨none⟩ : CustomSpanProcessor σ).ForceFlush ctx st = (none, st) :=
  ⟨rfl, rfl, rfl, rfl, rfl, rfl, rfl, rfl, rfl⟩

/-! ## Lemmas on `baggage.New` and the member list of the middleware -/

theorem NewMember_fst (rules : baggage.Rules) (key value : String) :
    (baggage.NewMember rules key value).1
      = if rules.memberOK key value then
          { key := key, value := rules.decode value, hasData := true }
        else baggage.newInvalidMember := by
  unfold baggage.NewMember
  split <;> rfl

theorem NewMember_err_iff (rules : baggage.Rules) (key value : String) :
    (baggage.NewMember rules key value).2 ≠ none ↔ rules.memberOK key value = false := by
  unfold baggage.NewMember
  cases rules.memberOK key value <;> simp

theorem loop_invalid (ms : List baggage.Member) (b : baggage.Baggage)
    (h : ∃ m ∈ ms, m.hasData = false) : baggage.New.loop ms b = none := by
  induction ms generalizing b with
  | nil => obtain ⟨m, hm, _⟩ := h; cases hm
  | cons m ms ih =>
    unfold baggage.New.loop
    by_cases hd : m.hasData = false
    · simp [hd]
    · simp only [hd, if_false]
      obtain ⟨m2, hm2, hd2⟩ := h
      rcases List.mem_cons.mp hm2 with rfl | hrest
      · exact absurd hd2 hd
      · exact ih _ ⟨m2, hrest, hd2⟩

/-- A list holding a member without data is rejected by `New`. -/
theorem New_invalid (rules : baggage.Rules) (ms : List baggage.Member)
    (h : ∃ m ∈ ms, m.hasData = false) :
    baggage.New rules ms = (baggage.Baggage.empty, some baggage.errInvalidMember) := by
  cases ms with
  | nil => obtain ⟨m, hm, _⟩ := h; cases hm
  | cons m ms =>
    simp only [baggage.New]
    rw [loop_invalid _ _ h]

theorem assign_fresh (key value : String) (l : List (String × String))
    (h : key ∉ l.map Prod.fst) : baggage.assign key value l = l ++ [(key, value)] := by
  induction l with
  | nil => rfl
  | cons kv rest ih =>
    obtain ⟨k, v⟩ := kv
    simp only [List.map_cons, List.mem_cons, not_or] at h
    have hk : ¬ k = key := fun e => h.1 e.symm
    simp [baggage.assign, hk, ih h.2]

theorem loop_fresh (es : List (String × String)) (b : baggage.Baggage)
    (h : ((b.list ++ es).map Prod.fst).Nodup) :
    ∃ b2, baggage.New.loop (es.map fun kv => ⟨kv.1, kv.2, true⟩) b = some b2
      ∧ b2.list = b.list ++ es := by
  induction es generalizing b with
  | nil => exact ⟨b, rfl, by simp⟩
  | cons kv rest ih =>
    have hfresh : kv.1 ∉ b.list.map Prod.fst := by
      intro hmem
      rw [List.map_append, List.nodup_append] at h
      exact h.2.2 hmem (by simp)
    have hl : (b.assign kv.1 kv.2).list = b.list ++ [kv] := by
      show baggage.assign kv.1 kv.2 b.list = _
      rw [assign_fresh _ _ _ hfresh]
    have h2 : (((b.assign kv.1 kv.2).list ++ rest).map Prod.fst).Nodup := by
      rw [hl]
      simpa using h
    obtain ⟨b2, hb2, hlist⟩ := ih (b.assign kv.1 kv.2) h2
    refine ⟨b2, ?_, ?_⟩
    · simp only [List.map_cons, baggage.New.loop]
      simpa using hb2
    · rw [hlist, hl]
      simp

/-- On members with data and pairwise different keys, a successful `New` returns exactly
those entries. -/
theorem New_fresh (rules : baggage.Rules) (es : List (String × String))
    (hn : (es.map Prod.fst).Nodup)
    (hok : (baggage.New rules (es.map fun kv => ⟨kv.1, kv.2, true⟩)).2 = none) :
    (baggage.New rules (es.map fun kv => ⟨kv.1, kv.2, true⟩)).1.list = es := by
  cases es with
  | nil => rfl
  | cons kv rest =>
    obtain ⟨b2, hb2, hlist⟩ := loop_fresh (kv :: rest) baggage.Baggage.empty
      (by simpa [baggage.Baggage.empty] using hn)
    simp only [List.map_cons] at hb2
    simp only [List.map_cons, baggage.New, hb2] at hok ⊢
    by_cases hsz : rules.sizeOK b2.list = true
    · simp only [hsz, if_true]
      simpa [baggage.Baggage.empty] using hlist
    · simp [hsz] at hok

theorem members_eq_calls (rules : baggage.Rules) (now : Int) (r : http.Request) :
    baggageMiddleware.members rules now r
      = (baggageMiddleware.calls now r).map fun kv => (baggage.NewMember rules kv.1 kv.2).1 := by
  unfold baggageMiddleware.members baggageMiddleware.calls
  simp only []
  split_ifs <;> simp

theorem calls_nodup (now : Int) (r : http.Request) :
    ((baggageMiddleware.calls now r).map Prod.fst).Nodup := by
  unfold baggageMiddleware.calls
  split_ifs <;> simp

theorem calls_keys (now : Int) (r : http.Request) (kv : String × String)
    (h : kv ∈ baggageMiddleware.calls now r) :
    kv.1 ∈ ["user_id", "tenant_id", "request_id", "client_ip", "user_agent"] := by
  have hall : ∀ k ∈ (baggageMiddleware.calls now r).map Prod.fst,
      k ∈ ["user_id", "tenant_id", "request_id", "client_ip", "user_agent"] := by
    unfold baggageMiddleware.calls
    split_ifs <;> simp
  exact hall _ (List.mem_map_of_mem _ h)

/-- When a `NewMember` call of the middleware fails, `New` rejects the member list. -/
theorem middleware_New_invalid (rules : baggage.Rules) (now : Int) (r : http.Request)
    (h : ∃ kv ∈ baggageMiddleware.calls now r, (baggage.NewMember rules kv.1 kv.2).2 ≠ none) :
    baggage.New rules (baggageMiddleware.members rules now r)
      = (baggage.Baggage.empty, some baggage.errInvalidMember) := by
  apply New_invalid
  obtain ⟨kv, hkv, herr⟩ := h
  rw [members_eq_calls]
  refine ⟨_, List.mem_map.mpr ⟨kv, hkv, rfl⟩, ?_⟩
  rw [NewMember_fst, (NewMember_err_iff rules kv.1 kv.2).mp herr]
  rfl

/-- When `New` accepts the member list, the carrier holds exactly the requested entries. -/
theorem middleware_New_list (rules : baggage.Rules) (now : Int) (r : http.Request)
    (hnew : (baggage.New rules (baggageMiddleware.members rules now r)).2 = none) :
    (baggage.New rules (baggageMiddleware.members rules now r)).1.list
      = baggageMiddleware.entries rules now r := by
  have hall : ∀ kv ∈ baggageMiddleware.calls now r, rules.memberOK kv.1 kv.2 = true := by
    intro kv hkv
    by_contra hbad
    have hfalse : rules.memberOK kv.1 kv.2 = false := by simpa using hbad
    have := middleware_New_invalid rules now r
      ⟨kv, hkv, (NewMember_err_iff rules kv.1 kv.2).mpr hfalse⟩
    rw [this] at hnew
    cases hnew
  have hm : baggageMiddleware.members rules now r
      = (baggageMiddleware.entries rules now r).map fun kv => ⟨kv.1, kv.2, true⟩ := by
    rw [members_eq_calls, baggageMiddleware.entries, List.map_map]
    apply List.map_congr_left
    intro kv hkv
    rw [NewMember_fst, hall kv hkv]
    rfl
  have hn : ((baggageMiddleware.entries rules now r).map Prod.fst).Nodup := by
    rw [baggageMiddleware.entries, List.map_map]
    exact calls_nodup now r
  rw [hm] at hnew ⊢
  exact New_fresh rules _ hn hnew

theorem entries_keys (rules : baggage.Rules) (now : Int) (r : http.Request)
    (kv : String × String) (h : kv ∈ baggageMiddleware.entries rules now r) :
    kv.1 ∈ ["user_id", "tenant_id", "request_id", "client_ip", "user_agent"] := by
  obtain ⟨kv2, hkv2, rfl⟩ := List.mem_map.mp h
  exact calls_keys now r kv2 hkv2

theorem digitChar_plain (n : Nat) : baggage.plainChar (Nat.digitChar (n % 10)) = true := by
  have h : n % 10 < 10 := Nat.mod_lt _ (by decide)
  interval_cases (n % 10) <;> decide

theorem toDigitsCore_plain (fuel n : Nat) (ds : List Char)
    (h : ∀ c ∈ ds, baggage.plainChar c = true) :
    ∀ c ∈ Nat.toDigitsCore 10 fuel n ds, baggage.plainChar c = true := by
  induction fuel generalizing n ds with
  | zero => simpa [Nat.toDigitsCore] using h
  | succ fuel ih =>
    have hcons : ∀ c ∈ Nat.digitChar (n % 10) :: ds, baggage.plainChar c = true := by
      intro c hc
      rcases List.mem_cons.mp hc with rfl | hc
      · exact digitChar_plain n
      · exact h c hc
    unfold Nat.toDigitsCore
    simp only []
    split
    · exact hcons
    · exact ih _ _ hcons

theorem nat_repr_plain (n : Nat) : ∀ c ∈ (Nat.repr n).data, baggage.plainChar c = true := by
  simp only [Nat.repr, Nat.toDigits, List.asString]
  exact toDigitsCore_plain _ _ _ (by simp)

theorem int_toString_plain (n : Int) :
    ∀ c ∈ (toString n).data, baggage.plainChar c = true := by
  cases n with
  | ofNat m => exact nat_repr_plain m
  | negSucc m =>
    show ∀ c ∈ ("-" ++ Nat.repr (Nat.succ m)).data, baggage.plainChar c = true
    intro c hc
    rw [String.data_append, List.mem_append] at hc
    rcases hc with hc | hc
    · have : c = '-' := by simpa using hc
      subst this
      decide
    · exact nat_repr_plain _ c hc

/-- The generated request id holds no escape, so `NewMember` stores it as it is. -/
theorem decode_generated_id (rules : baggage.Rules) (now : Int) :
    rules.decode ("req_" ++ toString now) = "req_" ++ toString now := by
  apply rules.decode_plain
  rw [List.all_eq_true]
  intro c hc
  rw [String.data_append, List.mem_append] at hc
  rcases hc with hc | hc
  · have hmem : c ∈ ['r', 'e', 'q', '_'] := hc
    simp only [List.mem_cons, List.mem_singleton, List.not_mem_nil, or_false] at hmem
    rcases hmem with rfl | rfl | rfl | rfl <;> decide
  · exact int_toString_plain now c hc

theorem decode_empty (rules : baggage.Rules) : rules.decode "" = "" :=
  rules.decode_plain "" rfl

theorem middleware_ok {σ : Type} (rules : baggage.Rules) (now : Int) (next : http.Handler σ)
    (r : http.Request) (st : σ)
    (hnew : (baggage.New rules (baggageMiddleware.members rules now r)).2 = none) :
    baggageMiddleware rules now next r st
      = next (r.WithContext (baggage.ContextWithBaggage r.Context
          (baggage.New rules (baggageMiddleware.members rules now r)).1)) st := by
  unfold baggageMiddleware
  simp only []
  generalize baggage.New rules (baggageMiddleware.members rules now r) = res at hnew
  obtain ⟨bag, err⟩ := res
  cases err with
  | none => rfl
  | some e => cases hnew

theorem middleware_err {σ : Type} (rules : baggage.Rules) (now : Int) (next : http.Handler σ)
    (r : http.Request) (st : σ)
    (herr : (baggage.New rules (baggageMiddleware.members rules now r)).2 ≠ none) :
    baggageMiddleware rules now next r st = next r st := by
  unfold baggageMiddleware
  simp only []
  generalize baggage.New rules (baggageMiddleware.members rules now r) = res at herr
  obtain ⟨bag, err⟩ := res
  cases err with
  | none => exact absurd rfl herr
  | some e => rfl

theorem generated_id_ne_empty (now : Int) : "req_" ++ toString now ≠ "" := by
  intro h
  have hd := congrArg String.data h
  rw [String.data_append] at hd
  cases hd

theorem onStart_attribute {σ : Type} (csp : CustomSpanProcessor σ)
    (hcsp : csp.downstreamKeepsAttributes) (c : context.Context) (s : sdktrace.ReadWriteSpan)
    (st : σ) (name : String) :
    (csp.OnStart c s st).1.Attribute name
      = (CustomSpanProcessor.annotate c s).Attribute name := by
  unfold CustomSpanProcessor.OnStart
  cases hp : csp.SpanProcessor with
  | none => rfl
  | some p => exact hcsp p hp c _ st name

/-- On a span without `baggage.*` attributes, the `baggage.*` attributes after `OnStart` are
exactly those of the carrier entries. -/
theorem onStart_baggage_attributes {σ : Type} (csp : CustomSpanProcessor σ)
    (hcsp : csp.downstreamKeepsAttributes) (c : context.Context) (s : sdktrace.ReadWriteSpan)
    (hs : ∀ name, isBaggageName name = true → s.Attribute name = none) (st : σ)
    (name : String) (val : attribute.Value) (hname : isBaggageName name = true) :
    (csp.OnStart c s st).1.Attribute name = some val
      ↔ ∃ kv ∈ (baggage.FromContext c).list,
          name = "baggage." ++ kv.1 ∧ val = attribute.Value.STRING kv.2 := by
  rw [onStart_attribute csp hcsp]
  constructor
  · intro h
    by_cases hex : ∃ kv ∈ (baggage.FromContext c).list, name = "baggage." ++ kv.1
    · obtain ⟨⟨k, v⟩, hkv, rfl⟩ := hex
      rw [annotate_entry c s k v hkv] at h
      exact ⟨(k, v), hkv, rfl, (Option.some.inj h).symm⟩
    · rw [annotate_other c s name (fun kv hkv hn => hex ⟨kv, hkv, hn⟩), hs name hname] at h
      cases h
  · rintro ⟨⟨k, v⟩, hkv, rfl, rfl⟩
    exact annotate_entry c s k v hkv

/-! ## The middleware: claims C2, C3, C4, C5, C9 -/

/-- C2, as stated, fails: the browser request has no `X-Request-ID`, yet the handler is not
called with a context that carries a baggage with a `request_id` entry (the `User-Agent`
value is rejected by `NewMember`, `New` rejects the list, and the request is served with its
original context). -/
theorem C2_counterexample :
    http.Header.Get browserRequest.Header "X-Request-ID" = ""
    ∧ ¬ ∃ (served : http.Request) (bag : baggage.Baggage) (v : String),
        baggageMiddleware baggage.w3cRules 17 http.recorder browserRequest [] = [served]
        ∧ served.Context.baggage = some bag ∧ ("request_id", v) ∈ bag.list ∧ v ≠ "" := by
  refine ⟨by decide, ?_⟩
  rintro ⟨served, bag, v, hcalls, hbag, _⟩
  have hmw : baggageMiddleware baggage.w3cRules 17 http.recorder browserRequest []
      = [browserRequest] :=
    middleware_err baggage.w3cRules 17 http.recorder browserRequest [] (by decide)
  rw [hmw] at hcalls
  cases hcalls
  cases hbag

/-- C2, amended: for every request whose `X-Request-ID` header is empty and whose member
list `baggage.New` accepts, the context that `baggageMiddleware` passes to the next handler
carries a baggage with a `request_id` entry, whose value is the generated, non-empty
`req_<UnixNano>`. -/
theorem C2_request_id_when_carrier_built (rules : baggage.Rules) (now : Int)
    (r : http.Request) (hid : http.Header.Get r.Header "X-Request-ID" = "")
    (hnew : (baggage.New rules (baggageMiddleware.members rules now r)).2 = none) :
    ∃ (bag : baggage.Baggage) (v : String),
      (∀ (σ : Type) (next : http.Handler σ) (st : σ),
        baggageMiddleware rules now next r st
          = next (r.WithContext (baggage.ContextWithBaggage r.Context bag)) st)
      ∧ (r.WithContext (baggage.ContextWithBaggage r.Context bag)).Context.baggage = some bag
      ∧ ("request_id", v) ∈ bag.list ∧ v = "req_" ++ toString now ∧ v ≠ "" := by
  refine ⟨(baggage.New rules (baggageMiddleware.members rules now r)).1,
    "req_" ++ toString now, fun σ next st => middleware_ok rules now next r st hnew, rfl,
    ?_, rfl, generated_id_ne_empty now⟩
  rw [middleware_New_list rules now r hnew]
  unfold baggageMiddleware.entries baggageMiddleware.calls
  simp [hid, decode_generated_id]

/-- Witness of C2 (amended): the request without headers and peer address, at clock reading
17. -/
theorem C2_request_id_when_carrier_built_witness :
    http.Header.Get bareRequest.Header "X-Request-ID" = ""
    ∧ (baggage.New baggage.w3cRules
        (baggageMiddleware.members baggage.w3cRules 17 bareRequest)).2 = none
    ∧ ∃ (bag : baggage.Baggage) (v : String),
      (∀ (σ : Type) (next : http.Handler σ) (st : σ),
        baggageMiddleware baggage.w3cRules 17 next bareRequest st
          = next (bareRequest.WithContext
              (baggage.ContextWithBaggage bareRequest.Context bag)) st)
      ∧ (bareRequest.WithContext
          (baggage.ContextWithBaggage bareRequest.Context bag)).Context.baggage = some bag
      ∧ ("request_id", v) ∈ bag.list ∧ v = "req_" ++ toString (17 : Int) ∧ v ≠ "" :=
  ⟨by decide, by decide,
    C2_request_id_when_carrier_built baggage.w3cRules 17 bareRequest (by decide) (by decide)⟩

/-- C3, as stated, fails: on the browser request only the `User-Agent` member fails to
build (`user_id`, `request_id` and `client_ip` build), yet the handler is not called with a
context whose baggage holds `request_id` and `client_ip`. -/
theorem C3_counterexample :
    (baggage.NewMember baggage.w3cRules "user_agent"
        (http.Header.Get browserRequest.Header "User-Agent")).2 ≠ none
    ∧ (baggage.NewMember baggage.w3cRules "user_id"
        (http.Header.Get browserRequest.Header "X-User-ID")).2 = none
    ∧ (baggage.NewMember baggage.w3cRules "request_id" ("req_" ++ toString (17 : Int))).2 = none
    ∧ (baggage.NewMember baggage.w3cRules "client_ip" browserRequest.RemoteAddr).2 = none
    ∧ ¬ ∃ (served : http.Request) (bag : baggage.Baggage),
        baggageMiddleware baggage.w3cRules 17 http.recorder browserRequest [] = [served]
        ∧ served.Context.baggage = some bag
        ∧ ("request_id", "req_" ++ toString (17 : Int)) ∈ bag.list
        ∧ ("client_ip", browserRequest.RemoteAddr) ∈ bag.list := by
  refine ⟨by decide, by decide, by decide, by decide, ?_⟩
  rintro ⟨served, bag, hcalls, hbag, _⟩
  have hmw : baggageMiddleware baggage.w3cRules 17 http.recorder browserRequest []
      = [browserRequest] :=
    middleware_err baggage.w3cRules 17 http.recorder browserRequest [] (by decide)
  rw [hmw] at hcalls
  cases hcalls
  cases hbag

/-- C3, amended: when a `NewMember` call of `baggageMiddleware` returns an error, the error
is discarded and the member that came with it is appended all the same; `baggage.New`
rejects the list, no carrier is installed, and the next handler is still invoked, exactly
once, with the original request. -/
theorem C3_failed_member_discards_carrier (rules : baggage.Rules) (now : Int)
    (r : http.Request)
    (h : ∃ kv ∈ baggageMiddleware.calls now r, (baggage.NewMember rules kv.1 kv.2).2 ≠ none) :
    baggage.newInvalidMember ∈ baggageMiddleware.members rules now r
    ∧ baggage.New rules (baggageMiddleware.members rules now r)
        = (baggage.Baggage.empty, some baggage.errInvalidMember)
    ∧ (∀ (σ : Type) (next : http.Handler σ) (st : σ),
        baggageMiddleware rules now next r st = next r st)
    ∧ baggageMiddleware rules now http.recorder r [] = [r] := by
  have hnew := middleware_New_invalid rules now r h
  have herr : (baggage.New rules (baggageMiddleware.members rules now r)).2 ≠ none := by
    rw [hnew]
    simp
  refine ⟨?_, hnew, fun σ next st => middleware_err rules now next r st herr,
    middleware_err rules now http.recorder r [] herr⟩
  obtain ⟨kv, hkv, hbad⟩ := h
  rw [members_eq_calls]
  refine List.mem_map.mpr ⟨kv, hkv, ?_⟩
  rw [NewMember_fst, (NewMember_err_iff rules kv.1 kv.2).mp hbad]
  rfl

/-- Witness of C3 (amended): the browser request, whose `User-Agent` value is rejected. -/
theorem C3_failed_member_discards_carrier_witness :
    baggageMiddleware baggage.w3cRules 17 http.recorder browserRequest [] = [browserRequest] :=
  (C3_failed_member_discards_carrier baggage.w3cRules 17 browserRequest
    ⟨("user_agent", "Mozilla/5.0 (X11; Linux x86_64)"), by decide, by decide⟩).2.2.2

/-- C4: for every request, `baggageMiddleware` calls the next handler exactly once: with the
request whose context carries the new carrier when `baggage.New` succeeds, and with the
original request, context untouched, when `baggage.New` returns an error. -/
theorem C4_next_called_once {σ : Type} (rules : baggage.Rules) (now : Int)
    (next : http.Handler σ) (r : http.Request) (st : σ) :
    ((baggage.New rules (baggageMiddleware.members rules now r)).2 = none →
      baggageMiddleware rules now next r st
          = next (r.WithContext (baggage.ContextWithBaggage r.Context
              (baggage.New rules (baggageMiddleware.members rules now r)).1)) st
      ∧ baggageMiddleware rules now http.recorder r []
          = [r.WithContext (baggage.ContextWithBaggage r.Context
              (baggage.New rules (baggageMiddleware.members rules now r)).1)])
    ∧ ((baggage.New rules (baggageMiddleware.members rules now r)).2 ≠ none →
      baggageMiddleware rules now next r st = next r st
      ∧ baggageMiddleware rules now http.recorder r [] = [r])
    ∧ (baggageMiddleware rules now http.recorder r []).length = 1 := by
  refine ⟨fun h => ⟨middleware_ok rules now next r st h,
      middleware_ok rules now http.recorder r [] h⟩,
    fun h => ⟨middleware_err rules now next r st h,
      middleware_err rules now http.recorder r [] h⟩, ?_⟩
  by_cases h : (baggage.New rules (baggageMiddleware.members rules now r)).2 = none
  · rw [middleware_ok rules now http.recorder r [] h]
    rfl
  · rw [middleware_err rules now http.recorder r [] h]
    rfl

/-- Witness of C4: the browser request is served as it came, the bare request is served
with the new carrier in its context. -/
theorem C4_next_called_once_witness :
    baggageMiddleware baggage.w3cRules 17 http.recorder browserRequest [] = [browserRequest]
    ∧ baggageMiddleware baggage.w3cRules 17 http.recorder bareRequest []
        = [bareRequest.WithContext (baggage.ContextWithBaggage bareRequest.Context
            (baggage.New baggage.w3cRules
              (baggageMiddleware.members baggage.w3cRules 17 bareRequest)).1)] :=
  ⟨((C4_next_called_once baggage.w3cRules 17 http.recorder browserRequest []).2.1
      (by decide)).2,
   ((C4_next_called_once baggage.w3cRules 17 http.recorder bareRequest []).1
      (by decide)).2⟩

/-- C5, as stated, fails: on the request with `X-User-ID: alice%40example.com` every
`NewMember` call and `New` succeed, yet the carrier served to the handler does not hold
`user_id` with the value of the header (it holds the decoded `alice@example.com`). -/
theorem C5_counterexample :
    (baggage.New baggage.w3cRules
        (baggageMiddleware.members baggage.w3cRules 17 escapedRequest)).2 = none
    ∧ (∀ kv ∈ baggageMiddleware.calls 17 escapedRequest,
        (baggage.NewMember baggage.w3cRules kv.1 kv.2).2 = none)
    ∧ http.Header.Get escapedRequest.Header "X-User-ID" ≠ ""
    ∧ ¬ ∃ (served : http.Request) (bag : baggage.Baggage),
        baggageMiddleware baggage.w3cRules 17 http.recorder escapedRequest [] = [served]
        ∧ served.Context.baggage = some bag
        ∧ ("user_id", http.Header.Get escapedRequest.Header "X-User-ID") ∈ bag.list := by
  refine ⟨by decide, by decide, by decide, ?_⟩
  rintro ⟨served, bag, hcalls, hbag, hmem⟩
  have hmw := middleware_ok baggage.w3cRules 17 http.recorder escapedRequest [] (by decide)
  rw [hmw] at hcalls
  cases hcalls
  cases hbag
  exact absurd hmem (by decide)

/-- C5, amended: when every `NewMember` call and `baggage.New` succeed, the carrier that
`baggageMiddleware` installs holds exactly these entries, each value in the percent-decoded
form in which `NewMember` stores it (the value itself when it holds no `%` and no `+`):
`user_id`, `tenant_id` and `user_agent` with the decoded value of their header iff that
header is non-empty; `request_id` always, with the decoded value of `X-Request-ID` when that
is non-empty and the generated id otherwise; `client_ip` always, with the decoded value of
`X-Forwarded-For` when that is non-empty and of the peer address otherwise.  No other key is
present and no key occurs twice. -/
theorem C5_installed_carrier (rules : baggage.Rules) (now : Int) (r : http.Request)
    (hnew : (baggage.New rules (baggageMiddleware.members rules now r)).2 = none) :
    ∃ bag : baggage.Baggage,
      (∀ (σ : Type) (next : http.Handler σ) (st : σ),
        baggageMiddleware rules now next r st
          = next (r.WithContext (baggage.ContextWithBaggage r.Context bag)) st)
      ∧ (∀ kv ∈ baggageMiddleware.calls now r, (baggage.NewMember rules kv.1 kv.2).2 = none)
      ∧ (∀ v, ("user_id", v) ∈ bag.list ↔
          http.Header.Get r.Header "X-User-ID" ≠ ""
            ∧ v = rules.decode (http.Header.Get r.Header "X-User-ID"))
      ∧ (∀ v, ("tenant_id", v) ∈ bag.list ↔
          http.Header.Get r.Header "X-Tenant-ID" ≠ ""
            ∧ v = rules.decode (http.Header.Get r.Header "X-Tenant-ID"))
      ∧ (∀ v, ("user_agent", v) ∈ bag.list ↔
          http.Header.Get r.Header "User-Agent" ≠ ""
            ∧ v = rules.decode (http.Header.Get r.Header "User-Agent"))
      ∧ (∀ v, ("request_id", v) ∈ bag.list ↔
          v = if http.Header.Get r.Header "X-Request-ID" ≠ "" then
                rules.decode (http.Header.Get r.Header "X-Request-ID")
              else "req_" ++ toString now)
      ∧ (∀ v, ("client_ip", v) ∈ bag.list ↔
          v = if http.Header.Get r.Header "X-Forwarded-For" ≠ "" then
                rules.decode (http.Header.Get r.Header "X-Forwarded-For")
              else rules.decode r.RemoteAddr)
      ∧ (∀ k v, (k, v) ∈ bag.list →
          k ∈ ["user_id", "tenant_id", "request_id", "client_ip", "user_agent"])
      ∧ (bag.list.map Prod.fst).Nodup
      ∧ (∀ value : String, value.data.all baggage.plainChar = true →
          rules.decode value = value) := by
  refine ⟨(baggage.New rules (baggageMiddleware.members rules now r)).1,
    fun σ next st => middleware_ok rules now next r st hnew, ?_, ?_⟩
  · intro kv hkv
    by_contra hbad
    have := middleware_New_invalid rules now r ⟨kv, hkv, hbad⟩
    rw [this] at hnew
    cases hnew
  have hn := (baggage.New rules (baggageMiddleware.members rules now r)).1.nodup
  rw [middleware_New_list rules now r hnew] at hn ⊢
  refine ⟨?_, ?_, ?_, ?_, ?_, fun k v hkv => entries_keys rules now r (k, v) hkv, hn,
    rules.decode_plain⟩
  all_goals
    intro v
    unfold baggageMiddleware.entries baggageMiddleware.calls
    split_ifs <;> simp_all [decode_generated_id]

/-- Witness of C5 (amended): the request with all five headers, at clock reading 17; the
carrier holds the decoded user id and the four other header values. -/
theorem C5_installed_carrier_witness :
    (baggage.New baggage.w3cRules
        (baggageMiddleware.members baggage.w3cRules 17 escapedRequest)).2 = none
    ∧ ∃ bag : baggage.Baggage,
        baggageMiddleware baggage.w3cRules 17 http.recorder escapedRequest []
          = [escapedRequest.WithContext
              (baggage.ContextWithBaggage escapedRequest.Context bag)]
        ∧ ("user_id", "alice@example.com") ∈ bag.list
        ∧ ("tenant_id", "acme-corp") ∈ bag.list
        ∧ ("request_id", "req-42") ∈ bag.list
        ∧ ("client_ip", "203.0.113.7") ∈ bag.list
        ∧ ("user_agent", "curl/8.5.0") ∈ bag.list :=
  ⟨by decide,
    (C5_installed_carrier baggage.w3cRules 17 escapedRequest (by decide)).elim
      fun bag h => ⟨bag, h.1 _ http.recorder [],
        (h.2.2.1 _).mpr ⟨by decide, by decide⟩,
        (h.2.2.2.1 _).mpr ⟨by decide, by decide⟩,
        (h.2.2.2.2.2.1 _).mpr (by decide),
        (h.2.2.2.2.2.2.1 _).mpr (by decide),
        (h.2.2.2.2.1 _).mpr ⟨by decide, by decide⟩⟩⟩

/-- C9: end to end.  When carrier construction succeeds and the span has no `baggage.*`
attribute before it starts, then after `baggageMiddleware` has installed the carrier and
`CustomSpanProcessor.OnStart` (the wrapped processor absent or one that keeps the attribute
map) has run with the context of the handler, the `baggage.*` attributes of the span are
exactly `"baggage." ++ k = v` for the entries `(k, v)` of the installed carrier.  For a
request without recognized headers and with an empty peer address these are
`baggage.request_id`, with the generated non-empty value, and `baggage.client_ip = ""`, and
no other. -/
theorem C9_end_to_end {σ : Type} (rules : baggage.Rules) (now : Int) (r : http.Request)
    (hnew : (baggage.New rules (baggageMiddleware.members rules now r)).2 = none)
    (csp : CustomSpanProcessor σ) (hcsp : csp.downstreamKeepsAttributes)
    (s : sdktrace.ReadWriteSpan)
    (hs : ∀ name, isBaggageName name = true → s.Attribute name = none) (st : σ) :
    ∃ bag : baggage.Baggage,
      (∀ (τ : Type) (next : http.Handler τ) (st2 : τ),
        baggageMiddleware rules now next r st2
          = next (r.WithContext (baggage.ContextWithBaggage r.Context bag)) st2)
      ∧ (∀ (name : String) (val : attribute.Value), isBaggageName name = true →
          ((csp.OnStart (r.WithContext (baggage.ContextWithBaggage r.Context bag)).Context
              s st).1.Attribute name = some val
            ↔ ∃ kv ∈ bag.list, name = "baggage." ++ kv.1 ∧ val = attribute.Value.STRING kv.2))
      ∧ (http.Header.Get r.Header "X-User-ID" = ""
          ∧ http.Header.Get r.Header "X-Tenant-ID" = ""
          ∧ http.Header.Get r.Header "X-Request-ID" = ""
          ∧ http.Header.Get r.Header "X-Forwarded-For" = ""
          ∧ http.Header.Get r.Header "User-Agent" = ""
          ∧ r.RemoteAddr = "" →
        "req_" ++ toString now ≠ ""
        ∧ ∀ (name : String) (val : attribute.Value), isBaggageName name = true →
          ((csp.OnStart (r.WithContext (baggage.ContextWithBaggage r.Context bag)).Context
              s st).1.Attribute name = some val
            ↔ (name = "baggage." ++ "request_id"
                ∧ val = attribute.Value.STRING ("req_" ++ toString now))
              ∨ (name = "baggage." ++ "client_ip" ∧ val = attribute.Value.STRING ""))) := by
  have hlist := middleware_New_list rules now r hnew
  have hgen : ∀ (name : String) (val : attribute.Value), isBaggageName name = true →
      ((csp.OnStart (r.WithContext (baggage.ContextWithBaggage r.Context
            (baggage.New rules (baggageMiddleware.members rules now r)).1)).Context
          s st).1.Attribute name = some val
        ↔ ∃ kv ∈ (baggage.New rules (baggageMiddleware.members rules now r)).1.list,
            name = "baggage." ++ kv.1 ∧ val = attribute.Value.STRING kv.2) :=
    fun name val hname => onStart_baggage_attributes csp hcsp _ s hs st name val hname
  refine ⟨(baggage.New rules (baggageMiddleware.members rules now r)).1,
    fun τ next st2 => middleware_ok rules now next r st2 hnew, hgen, ?_⟩
  rintro ⟨h1, h2, h3, h4, h5, h6⟩
  refine ⟨generated_id_ne_empty now, fun name val hname => ?_⟩
  rw [hgen name val hname, hlist]
  unfold baggageMiddleware.entries baggageMiddleware.calls
  simp [h1, h2, h3, h4, h5, h6, decode_generated_id, decode_empty]

/-- Witness of C9: the request without headers and peer address, at clock reading 17, a
fresh span and no wrapped processor: the span reads `baggage.client_ip = ""`. -/
theorem C9_end_to_end_witness :
    (baggage.New baggage.w3cRules
        (baggageMiddleware.members baggage.w3cRules 17 bareRequest)).2 = none
    ∧ ∃ bag : baggage.Baggage,
        baggageMiddleware baggage.w3cRules 17 http.recorder bareRequest []
          = [bareRequest.WithContext (baggage.ContextWithBaggage bareRequest.Context bag)]
        ∧ ((⟨none⟩ : CustomSpanProcessor Unit).OnStart
            (bareRequest.WithContext
              (baggage.ContextWithBaggage bareRequest.Context bag)).Context
            { name := "GET /health", attributes := [] } ()).1.Attribute
              ("baggage." ++ "client_ip")
            = some (attribute.Value.STRING "") :=
  ⟨by decide,
    (C9_end_to_end baggage.w3cRules 17 bareRequest (by decide)
        (⟨none⟩ : CustomSpanProcessor Unit) (fun _ hp => by cases hp)
        { name := "GET /health", attributes := [] } (fun _ _ => rfl) ()).elim
      fun bag h => ⟨bag, h.1 _ http.recorder [],
        ((h.2.2 ⟨rfl, rfl, rfl, rfl, rfl, rfl⟩).2 _ _ (isBaggageName_append "client_ip")).mpr
          (Or.inr ⟨rfl, rfl⟩)⟩⟩

/-- Witness of C8: the carriers `a=1,b=2` and `b=2,a=1` give a span the same attribute map,
and give a parent and a child span that differ only outside `baggage.*` the same
`baggage.a`. -/
theorem C8_annotate_order_independent_witness :
    (CustomSpanProcessor.annotate
        { baggage := some ⟨[("a", "1"), ("b", "2")], by decide⟩, values := [] }
        { name := "parent", attributes := [] }).Attribute ("baggage." ++ "a")
      = (CustomSpanProcessor.annotate
        { baggage := some ⟨[("b", "2"), ("a", "1")], by decide⟩, values := [] }
        { name := "parent", attributes := [] }).Attribute ("baggage." ++ "a")
    ∧ (CustomSpanProcessor.annotate
        { baggage := some ⟨[("a", "1"), ("b", "2")], by decide⟩, values := [] }
        { name := "parent",
          attributes := [attribute.String "order.id" "o1"] }).Attribute ("baggage." ++ "a")
      = (CustomSpanProcessor.annotate
        { baggage := some ⟨[("b", "2"), ("a", "1")], by decide⟩, values := [] }
        { name := "child",
          attributes := [attribute.String "payment.order_id" "o1"] }).Attribute
            ("baggage." ++ "a") :=
  ⟨(C8_annotate_order_independent ⟨[("a", "1"), ("b", "2")], by decide⟩
      ⟨[("b", "2"), ("a", "1")], by decide⟩ (List.Perm.swap _ _ _) _ _ rfl rfl
      { name := "parent", attributes := [] } { name := "parent", attributes := [] }).1
      (fun _ => rfl) _,
   (C8_annotate_order_independent ⟨[("a", "1"), ("b", "2")], by decide⟩
      ⟨[("b", "2"), ("a", "1")], by decide⟩ (List.Perm.swap _ _ _) _ _ rfl rfl
      { name := "parent", attributes := [attribute.String "order.id" "o1"] }
      { name := "child", attributes := [attribute.String "payment.order_id" "o1"] }).2
      (fun name hname => by
        have h1 : ¬ "order.id" = name := by
          rintro rfl
          exact absurd hname (by decide)
        have h2 : ¬ "payment.order_id" = name := by
          rintro rfl
          exact absurd hname (by decide)
        simp [sdktrace.ReadWriteSpan.Attribute, sdktrace.lastWrite, attribute.String, h1, h2])
      _ (isBaggageName_append "a")⟩

end OtelBaggage
